import Mathlib

/-
Shallow embedding of the budget_ten Telegram budget bot (src/main.py).

Modelling conventions:
* Postgres NUMERIC / Python Decimal amounts are modelled as exact rationals (ℚ).
* Calendar days are ordinal day numbers (Int); `month_start` implements the
  proleptic Gregorian calendar used by Python's `datetime.date`.
* Timestamps (`spent_at`) are pairs (day, second-of-day) ordered
  lexicographically; `ORDER BY spent_at DESC` is modelled as a stable
  descending sort on that key.
* The database tables are lists; SQL unique-index upserts become
  remove-then-cons on the list, keyed exactly as the SQL ON CONFLICT clause.
* Python string methods .lower()/.upper()/.strip() are modelled for the
  ASCII and Cyrillic ranges actually used by the program.
* An uncaught Python exception inside a handler is modelled as an aborted
  run: mutations already committed stay, no result batch and no reply is
  produced (python-telegram-bot swallows handler exceptions).
-/

namespace BudgetTen

/-! ### Python date arithmetic (proleptic Gregorian, Howard Hinnant's civil algorithm) -/

def civilFromDays (z0 : Int) : Int × Int × Int :=
  let z := z0 + 719468
  let era := z.ediv 146097
  let doe := z - era * 146097
  let yoe := (doe - doe.ediv 1460 + doe.ediv 36524 - doe.ediv 146096).ediv 365
  let y := yoe + era * 400
  let doy := doe - (365 * yoe + yoe.ediv 4 - yoe.ediv 100)
  let mp := (5 * doy + 2).ediv 153
  let d := doy - (153 * mp + 2).ediv 5 + 1
  let m := mp + (if mp < 10 then 3 else -9)
  (y + (if m ≤ 2 then 1 else 0), m, d)

def daysFromCivil (y0 m d : Int) : Int :=
  let y := y0 - (if m ≤ 2 then 1 else 0)
  let era := y.ediv 400
  let yoe := y - era * 400
  let doy := (153 * (m + (if m > 2 then -3 else 9)) + 2).ediv 5 + d - 1
  let doe := yoe * 365 + yoe.ediv 4 - yoe.ediv 100 + doy
  era * 146097 + doe - 719468

/-- `month_start` from src/main.py: first day of the month of `d`. -/
def month_start (d : Int) : Int :=
  let c := civilFromDays d
  daysFromCivil c.1 c.2.1 1

/-! ### Python string helpers -/

/-- Python `str.lower()` restricted to ASCII and Cyrillic (the ranges the bot uses). -/
def pyLowerChar (c : Char) : Char :=
  let n := c.toNat
  if 65 ≤ n ∧ n ≤ 90 then Char.ofNat (n + 32)
  else if 1040 ≤ n ∧ n ≤ 1071 then Char.ofNat (n + 32)
  else if n = 1025 then Char.ofNat 1105
  else c

def pyLower (s : String) : String := ⟨s.data.map pyLowerChar⟩

/-- Python `str.strip()` (structurally recursive so that proofs can evaluate
it): drop whitespace from both ends. -/
def pyStrip (s : String) : String :=
  ⟨((s.data.dropWhile Char.isWhitespace).reverse.dropWhile Char.isWhitespace).reverse⟩

/-- Python `str.upper()` restricted to ASCII and Cyrillic. -/
def pyUpperChar (c : Char) : Char :=
  let n := c.toNat
  if 97 ≤ n ∧ n ≤ 122 then Char.ofNat (n - 32)
  else if 1072 ≤ n ∧ n ≤ 1103 then Char.ofNat (n - 32)
  else if n = 1105 then Char.ofNat 1025
  else c

def pyUpper (s : String) : String := ⟨s.data.map pyUpperChar⟩

/-- Python `x or default` for an optional string field (None and "" are falsy). -/
def pyOr (v : Option String) (dflt : String) : String :=
  match v with
  | some s => if s = "" then dflt else s
  | none => dflt

def DEFAULT_CURRENCY : String := "UZS"

/-- Decimal-to-string used inside rollover reason messages. -/
def decStr (q : ℚ) : String :=
  if q.den = 1 then toString q.num else toString q.num ++ "/" ++ toString q.den

/-! ### Data model (tables from init_db) -/

/-- A row of the `expenses` table. `spentAt` is (day, second-of-day). -/
structure Expense where
  id : Nat
  chat : Int
  user : Int
  amount : ℚ
  currency : String
  mainCategory : String
  subCategory : String
  note : String
  spentAt : Int × Int
  spentDate : Int
deriving DecidableEq, Repr

/-- A row of the `budgets` table (unique on chat, user, main_category, currency). -/
structure BudgetBase where
  chat : Int
  user : Int
  mainCategory : String
  currency : String
  dailyLimit : Option ℚ
  monthlyLimit : Option ℚ
deriving DecidableEq, Repr

/-- A row of the `daily_overrides` table (unique on chat, user, main_category, currency, day). -/
structure DailyOverride where
  chat : Int
  user : Int
  mainCategory : String
  currency : String
  day : Int
  effectiveLimit : ℚ
  reason : String
deriving DecidableEq, Repr

/-- The database state: expenses, budgets, daily overrides, and the
`user_states` table (which in this program only ever holds
`\x7b"pending":true,"kind":"confirm_delete","ids":[...]\x7d`, modelled as the id list). -/
structure St where
  expenses : List Expense
  nextId : Nat
  budgets : List BudgetBase
  overrides : List DailyOverride
  states : List ((Int × Int) × List Nat)
deriving DecidableEq, Repr

def St.empty : St := ⟨[], 0, [], [], []⟩

/-! ### DB helpers (src/main.py lines 364-533) -/

/-- `get_state` / the `pending confirm_delete` check: the stored id list, if any. -/
def get_state (s : St) (chat user : Int) : Option (List Nat) :=
  (s.states.find? (fun p => decide (p.1 = (chat, user)))).map (·.2)

/-- `set_state` (upsert on primary key (chat_id, tg_user_id)). -/
def set_state (s : St) (chat user : Int) (ids : List Nat) : St :=
  { s with states :=
      ((chat, user), ids) :: s.states.filter (fun p => decide (p.1 ≠ (chat, user))) }

/-- `clear_state`. -/
def clear_state (s : St) (chat user : Int) : St :=
  { s with states := s.states.filter (fun p => decide (p.1 ≠ (chat, user))) }

/-- `set_budget_base`: upsert on (chat, user, main_category, currency). -/
def set_budget_base (s : St) (chat user : Int) (mc cur : String)
    (dl ml : Option ℚ) : St :=
  { s with budgets :=
      ⟨chat, user, mc, cur, dl, ml⟩ ::
        s.budgets.filter (fun b =>
          decide (¬(b.chat = chat ∧ b.user = user ∧ b.mainCategory = mc ∧ b.currency = cur))) }

/-- `get_budget_base`. -/
def get_budget_base (s : St) (chat user : Int) (mc cur : String) : Option BudgetBase :=
  s.budgets.find? (fun b =>
    decide (b.chat = chat ∧ b.user = user ∧ b.mainCategory = mc ∧ b.currency = cur))

/-- `upsert_override`: upsert on (chat, user, main_category, currency, day). -/
def upsert_override (s : St) (chat user : Int) (mc cur : String) (day : Int)
    (effectiveLimit : ℚ) (reason : String) : St :=
  { s with overrides :=
      ⟨chat, user, mc, cur, day, effectiveLimit, reason⟩ ::
        s.overrides.filter (fun o =>
          decide (¬(o.chat = chat ∧ o.user = user ∧ o.mainCategory = mc ∧
            o.currency = cur ∧ o.day = day))) }

/-- `get_override`. -/
def get_override (s : St) (chat user : Int) (mc cur : String) (day : Int) :
    Option DailyOverride :=
  s.overrides.find? (fun o =>
    decide (o.chat = chat ∧ o.user = user ∧ o.mainCategory = mc ∧
      o.currency = cur ∧ o.day = day))

/-- `sum_expenses`: mirrors the Python `if main_category and currency:`
truthiness test — the category/currency filters apply only when both are
given AND non-empty strings; otherwise the sum is unfiltered. -/
def sum_expenses (s : St) (chat user : Int) (start stop : Int)
    (mc cur : Option String) : ℚ :=
  match mc, cur with
  | some m, some c =>
      if m = "" ∨ c = "" then
        ((s.expenses.filter (fun e =>
          decide (e.chat = chat ∧ e.user = user ∧ start ≤ e.spentDate ∧
            e.spentDate ≤ stop))).map Expense.amount).sum
      else
        ((s.expenses.filter (fun e =>
          decide (e.chat = chat ∧ e.user = user ∧ start ≤ e.spentDate ∧ e.spentDate ≤ stop ∧
            e.mainCategory = m ∧ e.currency = c))).map Expense.amount).sum
  | _, _ =>
      ((s.expenses.filter (fun e =>
        decide (e.chat = chat ∧ e.user = user ∧ start ≤ e.spentDate ∧
          e.spentDate ≤ stop))).map Expense.amount).sum

/-- Modelled from the spec: "S is the sum of that tenant's expenses for that
category/currency on day d-1" — always filtered by the exact category and
currency. Used only to compare the claim's words against the source's
`sum_expenses`, which drops both filters when either string is empty
(Python truthiness). -/
def sum_expenses_spec (s : St) (chat user : Int) (start stop : Int)
    (m c : String) : ℚ :=
  ((s.expenses.filter (fun e =>
    decide (e.chat = chat ∧ e.user = user ∧ start ≤ e.spentDate ∧ e.spentDate ≤ stop ∧
      e.mainCategory = m ∧ e.currency = c))).map Expense.amount).sum

/-- `add_expense` (the DB insert): returns the fresh id; `spent_date` is the
date of the `spent_at` instant, exactly as the Python caller computes it. -/
def add_expense (s : St) (chat user : Int) (amount : ℚ) (currency mc sc note : String)
    (whenTs : Int × Int) : Nat × St :=
  (s.nextId,
    { s with
      expenses := s.expenses ++
        [⟨s.nextId, chat, user, amount, currency, mc, sc, note, whenTs, whenTs.1⟩],
      nextId := s.nextId + 1 })

/-- `delete_expenses_by_ids`: DELETE scoped by tenant, returns rowcount. -/
def delete_expenses_by_ids (s : St) (chat user : Int) (ids : List Nat) : Nat × St :=
  if ids = [] then (0, s)
  else
    ((s.expenses.filter (fun e =>
        decide (e.chat = chat ∧ e.user = user ∧ e.id ∈ ids))).length,
      { s with expenses := s.expenses.filter (fun e =>
          decide (¬(e.chat = chat ∧ e.user = user ∧ e.id ∈ ids))) })

/-- Strictly-later-than on (day, second) timestamps. -/
def ts_le (a b : Int × Int) : Bool :=
  decide (a.1 < b.1 ∨ (a.1 = b.1 ∧ a.2 ≤ b.2))

def insert_desc (e : Expense) : List Expense → List Expense
  | [] => [e]
  | x :: xs => if ts_le x.spentAt e.spentAt then e :: x :: xs else x :: insert_desc e xs

/-- `ORDER BY spent_at DESC` as a stable descending sort. -/
def sort_by_time_desc (l : List Expense) : List Expense := l.foldr insert_desc []

/-- `find_expenses`: the three SQL branches of src/main.py lines 490-520
(a sub_category filter without a main_category is ignored). -/
def find_expenses (s : St) (chat user : Int) (start stop : Int)
    (mc sc : Option String) : List Expense :=
  let base := s.expenses.filter (fun e =>
    decide (e.chat = chat ∧ e.user = user ∧ start ≤ e.spentDate ∧ e.spentDate ≤ stop))
  let filtered :=
    match mc, sc with
    | some m, some c => base.filter (fun e => decide (e.mainCategory = m ∧ e.subCategory = c))
    | some m, none => base.filter (fun e => decide (e.mainCategory = m))
    | _, _ => base
  sort_by_time_desc filtered

/-- One row of `breakdown_main_sub`. -/
structure CatRow where
  mainCategory : String
  subCategory : String
  currency : String
  spent : ℚ
deriving DecidableEq, Repr

def insert_catrow_desc (r : CatRow) : List CatRow → List CatRow
  | [] => [r]
  | x :: xs => if x.spent ≤ r.spent then r :: x :: xs else x :: insert_catrow_desc r xs

/-- `breakdown_main_sub`: GROUP BY main, sub, currency with SUM, ordered by spent DESC. -/
def breakdown_main_sub (s : St) (chat user : Int) (start stop : Int) : List CatRow :=
  let es := s.expenses.filter (fun e =>
    decide (e.chat = chat ∧ e.user = user ∧ start ≤ e.spentDate ∧ e.spentDate ≤ stop))
  let keys := (es.map (fun e => (e.mainCategory, e.subCategory, e.currency))).dedup
  let rows := keys.map (fun k =>
    CatRow.mk k.1 k.2.1 k.2.2
      (((es.filter (fun e =>
        decide (e.mainCategory = k.1 ∧ e.subCategory = k.2.1 ∧ e.currency = k.2.2))).map
          Expense.amount).sum))
  rows.foldr insert_catrow_desc []

/-! ### Carryover engine (src/main.py lines 562-646) -/

/-- Result shape of `get_effective_daily_limit`. -/
structure EffLimit where
  limit : ℚ
  reason : String
  source : String
deriving DecidableEq, Repr

/-- `get_effective_daily_limit`: override first, else the base daily limit,
else absent. -/
def get_effective_daily_limit (s : St) (chat user : Int) (mc cur : String) (day : Int) :
    Option EffLimit :=
  match get_override s chat user mc cur day with
  | some o => some ⟨o.effectiveLimit, o.reason, "override"⟩
  | none =>
    match get_budget_base s chat user mc cur with
    | some b =>
      match b.dailyLimit with
      | some dl => some ⟨dl, "базовый дневной бюджет", "base"⟩
      | none => none
    | none => none

/-- Return payload of `ensure_daily_rollover_for_today` (the code stringifies
these rationals; we keep the exact values). -/
structure RollInfo where
  yesterdayLimit : ℚ
  yesterdaySpent : ℚ
  delta : ℚ
  todayLimit : ℚ
  reason : String
deriving DecidableEq, Repr

def rollReason (delta : ℚ) (currency : String) : String :=
  if delta = 0 then "Переноса нет: вчера потрачено ровно по дневному бюджету."
  else if delta > 0 then s!"Перенос остатка {decStr delta} {currency} со вчера."
  else s!"Перенос перерасхода {decStr (abs delta)} {currency} со вчера."

/-- `ensure_daily_rollover_for_today`: no-op without a base daily limit or when
an override already exists for `day`; otherwise persists
`max(0, base + (yesterdayLimit - yesterdaySpent))` as the day's override. -/
def ensure_daily_rollover_for_today (s : St) (chat user : Int) (mc cur : String)
    (day : Int) : Option RollInfo × St :=
  match get_budget_base s chat user mc cur with
  | none => (none, s)
  | some b =>
    match b.dailyLimit with
    | none => (none, s)
    | some base_daily =>
      match get_override s chat user mc cur day with
      | some _ => (none, s)
      | none =>
        let yesterday := day - 1
        let eff_y := get_effective_daily_limit s chat user mc cur yesterday
        let yesterday_limit := match eff_y with | some e => e.limit | none => base_daily
        let yesterday_spent := sum_expenses s chat user yesterday yesterday (some mc) (some cur)
        let delta := yesterday_limit - yesterday_spent
        let today_limit := if base_daily + delta < 0 then (0 : ℚ) else base_daily + delta
        let reason := rollReason delta cur
        (some ⟨yesterday_limit, yesterday_spent, delta, today_limit, reason⟩,
          upsert_override s chat user mc cur day today_limit reason)

/-- `daily` half of the `calc_left_and_warn` payload. -/
structure DailyInfo where
  limit : Option ℚ
  spent : ℚ
  left : Option ℚ
  warn : Bool
  reason : Option String
deriving DecidableEq, Repr

/-- `monthly` half of the `calc_left_and_warn` payload. -/
structure MonthlyInfo where
  limit : Option ℚ
  spent : ℚ
  left : Option ℚ
  warn : Bool
deriving DecidableEq, Repr

structure BudgetInfo where
  daily : DailyInfo
  monthly : MonthlyInfo
deriving DecidableEq, Repr

/-- `calc_left_and_warn`: remaining daily/monthly budget and the sub-10%
warnings, each guarded by `limit > 0`. -/
def calc_left_and_warn (s : St) (chat user : Int) (mc cur : String) (day : Int) :
    BudgetInfo :=
  let eff := get_effective_daily_limit s chat user mc cur day
  let dLimit := eff.map (·.limit)
  let dReason := eff.map (·.reason)
  let dSpent := sum_expenses s chat user day day (some mc) (some cur)
  let dLeft := dLimit.map (· - dSpent)
  let dWarn :=
    match dLimit with
    | some l => decide (l > 0 ∧ (l - dSpent) / l < (1 : ℚ) / 10)
    | none => false
  let base := get_budget_base s chat user mc cur
  let mLimit := match base with | some b => b.monthlyLimit | none => none
  let ms := month_start day
  let mSpent := sum_expenses s chat user ms day (some mc) (some cur)
  let mLeft := mLimit.map (· - mSpent)
  let mWarn :=
    match mLimit with
    | some l => decide (l > 0 ∧ (l - mSpent) / l < (1 : ℚ) / 10)
    | none => false
  ⟨⟨dLimit, dSpent, dLeft, dWarn, dReason⟩, ⟨mLimit, mSpent, mLeft, mWarn⟩⟩

/-! ### Action executor (src/main.py execute_plan, lines 917-1082) -/

/-- A JSON field as the executor sees it: absent, present but unparsable by
`Decimal(str(. ))` / `parse_ymd` / `int(. )` (which raises), or a parsed value. -/
inductive FieldV (α : Type) where
  | missing
  | malformed
  | val (a : α)
deriving DecidableEq, Repr

/-- A planner action. Optional-string fields keep the raw JSON string (or
`none` when the key is absent/null); numeric and date fields carry their
parse outcome. -/
inductive Action where
  | set_budget (mc cur : Option String) (dl ml : FieldV ℚ)
  | add_expense (amount : FieldV ℚ) (cur mc sc note : Option String) (spentDate : FieldV Int)
  | get_history (startD endD : FieldV Int) (groupBy : Option String)
  | get_categories (startD endD : FieldV Int)
  | get_stats (startD endD : FieldV Int)
  | suggest_savings (startD endD : FieldV Int)
  | delete_expense (mode : Option String) (rid : FieldV Nat) (startD endD : FieldV Int)
      (mc sc : Option String)
  | unknown (name : String)
deriving DecidableEq, Repr

/-- One entry of the executor's `results` list. -/
inductive ActionResult where
  | set_budget (mc cur : String) (dl ml : Option ℚ)
  | add_expense (id : Nat) (amount : ℚ) (cur mc sc note : String)
      (rollover : Option RollInfo) (budgetInfo : BudgetInfo)
  | get_history (startD endD : Int) (groupBy : String) (total : ℚ) (rowsCount : Nat)
      (rowsPreview : List Expense) (byMainSub : Option (List CatRow))
  | get_categories (startD endD : Int) (rows : List CatRow)
  | get_stats (startD endD : Int) (total : ℚ) (cats : List CatRow)
  | suggest_savings (startD endD : Int) (total : ℚ) (cats : List CatRow)
  | delete_expense (mode : String) (deleted : Nat) (ids : List Nat) (matched : Option Nat)
  | delete_unknown_mode
  | error_unknown (name : String)
deriving DecidableEq, Repr

/-- The daily-limit slot of an add_expense result's budget info (absent for
other result shapes). -/
def ActionResult.budgetInfo? : ActionResult → Option BudgetInfo
  | .add_expense _ _ _ _ _ _ _ info => some info
  | _ => none

/-- `mc = mc.lower().strip() if isinstance(mc, str) and mc.strip() else None`
(the filter-delete category normalisation). -/
def normFilterCat (v : Option String) : Option String :=
  match v with
  | some s => if pyStrip s = "" then none else some (pyStrip (pyLower s))
  | none => none

/-- `set_budget` / `add_expense` daily-limit parse:
missing → None, malformed → raise, value → Some. -/
def decField? (f : FieldV ℚ) : Option (Option ℚ) :=
  match f with
  | .missing => some none
  | .malformed => none
  | .val q => some (some q)

/-- Execute one plan action. `none` models an uncaught Python exception
(Decimal / parse_ymd / int raising on a malformed or missing required field). -/
def exec_action (chat user : Int) (todayD nowSec : Int) (s : St) (a : Action) :
    Option (St × ActionResult) :=
  match a with
  | .set_budget mc0 cur0 dl0 ml0 =>
    let mc := pyStrip (pyLower (pyOr mc0 "other"))
    let cur := pyStrip (pyUpper (pyOr cur0 DEFAULT_CURRENCY))
    match decField? dl0, decField? ml0 with
    | some dl, some ml =>
      let s1 := set_budget_base s chat user mc cur dl ml
      let s2 := if dl.isSome then (ensure_daily_rollover_for_today s1 chat user mc cur todayD).2
                else s1
      some (s2, .set_budget mc cur dl ml)
    | _, _ => none
  | .add_expense amount0 cur0 mc0 sc0 note0 sd0 =>
    match amount0 with
    | .val amount =>
      let cur := pyStrip (pyUpper (pyOr cur0 DEFAULT_CURRENCY))
      let mc := pyStrip (pyLower (pyOr mc0 "other"))
      let sc := pyStrip (pyLower (pyOr sc0 mc))
      let note := pyStrip (pyOr note0 "")
      match sd0 with
      | .malformed => none
      | .missing =>
        let d := todayD
        let roll := ensure_daily_rollover_for_today s chat user mc cur d
        let ins := add_expense roll.2 chat user amount cur mc sc note (todayD, nowSec)
        let info := calc_left_and_warn ins.2 chat user mc cur d
        some (ins.2, .add_expense ins.1 amount cur mc sc note roll.1 info)
      | .val d =>
        let roll := ensure_daily_rollover_for_today s chat user mc cur d
        let ins := add_expense roll.2 chat user amount cur mc sc note (d, 43200)
        let info := calc_left_and_warn ins.2 chat user mc cur d
        some (ins.2, .add_expense ins.1 amount cur mc sc note roll.1 info)
    | _ => none
  | .get_history sd0 ed0 gb0 =>
    match sd0, ed0 with
    | .val start, .val stop =>
      let groupBy := pyStrip (pyOr gb0 "none")
      let rows := find_expenses s chat user start stop none none
      let total := sum_expenses s chat user start stop none none
      let cats := if groupBy = "main_sub" then some (breakdown_main_sub s chat user start stop)
                  else none
      some (s, .get_history start stop groupBy total rows.length (rows.take 25)
        (match cats with
         | some l => if l = [] then none else some (l.take 60)
         | none => none))
    | _, _ => none
  | .get_categories sd0 ed0 =>
    match sd0, ed0 with
    | .val start, .val stop =>
      some (s, .get_categories start stop (breakdown_main_sub s chat user start stop))
    | _, _ => none
  | .get_stats sd0 ed0 =>
    match sd0, ed0 with
    | .val start, .val stop =>
      some (s, .get_stats start stop (sum_expenses s chat user start stop none none)
        (breakdown_main_sub s chat user start stop))
    | _, _ => none
  | .suggest_savings sd0 ed0 =>
    match sd0, ed0 with
    | .val start, .val stop =>
      some (s, .suggest_savings start stop (sum_expenses s chat user start stop none none)
        (breakdown_main_sub s chat user start stop))
    | _, _ => none
  | .delete_expense mode0 rid0 sd0 ed0 mc0 sc0 =>
    let mode := pyStrip (pyOr mode0 "last")
    if mode = "by_id" then
      match rid0 with
      | .val rid =>
        let del := delete_expenses_by_ids s chat user [rid]
        some (del.2, .delete_expense "by_id" del.1 [rid] none)
      | _ => none
    else if mode = "last" then
      let rows := find_expenses s chat user (todayD - 3650) todayD none none
      match rows with
      | [] => some (s, .delete_expense "last" 0 [] none)
      | r :: _ =>
        let del := delete_expenses_by_ids s chat user [r.id]
        some (del.2, .delete_expense "last" del.1 [r.id] none)
    else if mode = "filter" then
      match sd0, ed0 with
      | .val start, .val stop =>
        let mc := normFilterCat mc0
        let sc := normFilterCat sc0
        let rows := find_expenses s chat user start stop mc sc
        let ids := rows.map (·.id)
        let del := delete_expenses_by_ids s chat user ids
        some (del.2, .delete_expense "filter" del.1 (ids.take 200) (some ids.length))
      | _, _ => none
    else some (s, .delete_unknown_mode)
  | .unknown name => some (s, .error_unknown name)

/-- Outcome of `execute_plan`: the final DB state, the result batch, and
whether an exception escaped (in which case Python returns no batch at all,
while mutations committed before the raise persist). -/
structure ExecOut where
  state : St
  results : List ActionResult
  raised : Bool
deriving DecidableEq, Repr

/-- `execute_plan`: run the actions in order; an uncaught exception stops the
loop, keeps the already-committed mutations, and loses the result batch. -/
def execute_plan (chat user : Int) (todayD nowSec : Int) (s : St) :
    List Action → ExecOut
  | [] => ⟨s, [], false⟩
  | a :: rest =>
    match exec_action chat user todayD nowSec s a with
    | none => ⟨s, [], true⟩
    | some (s1, r) =>
      let out := execute_plan chat user todayD nowSec s1 rest
      if out.raised then ⟨out.state, [], true⟩ else ⟨out.state, r :: out.results, false⟩

/-! ### on_text handler (src/main.py lines 1193-1308): confirmation state
machine and the delete-confirmation detour -/

/-- The planner's (LLM) reply, validated shape. -/
inductive Plan where
  | clarify (question : String)
  | plan (actions : List Action)
deriving DecidableEq, Repr

/-- What on_text replies with (the Russian texts of the source, abstracted to
their identity; `raisedNoReply` marks a handler that died on an exception). -/
inductive Reply where
  | ignored
  | deletedCount (n : Nat)
  | cancelled
  | askYesNo
  | clarify (question : String)
  | nothingMatched
  | noRecords
  | confirmFilter (found : Nat)
  | confirmLast (rid : Nat)
  | finalReply (results : List ActionResult)
  | raisedNoReply
deriving DecidableEq, Repr

def yes_vocab : List String := ["да", "да.", "yes", "y"]
def no_vocab : List String := ["нет", "нет.", "no", "n"]

/-- The pending confirm_delete branch (lines 1217-1235). -/
def handle_confirm (s : St) (chat user : Int) (raw : String) (ids : List Nat) :
    St × Reply :=
  let low := pyStrip (pyLower raw)
  if low ∈ yes_vocab then
    let del := delete_expenses_by_ids s chat user ids
    (clear_state del.2 chat user, .deletedCount del.1)
  else if low ∈ no_vocab then
    (clear_state s chat user, .cancelled)
  else (s, .askYesNo)

/-- The pre-execution scan for delete actions needing confirmation
(lines 1255-1292): the first `filter` or `last` delete short-circuits the
whole turn; other actions fall through to `execute_plan`. -/
def detour_scan (s : St) (chat user : Int) (todayD : Int) :
    List Action → Option (St × Reply)
  | [] => none
  | .delete_expense mode0 _ sd0 ed0 mc0 sc0 :: rest =>
    let mode := pyOr mode0 "last"
    if mode = "filter" then
      match sd0, ed0 with
      | .val start, .val stop =>
        let mc := normFilterCat mc0
        let sc := normFilterCat sc0
        let rows := find_expenses s chat user start stop mc sc
        let ids := rows.map (·.id)
        if ids.length = 0 then some (s, .nothingMatched)
        else some (set_state s chat user (ids.take 200), .confirmFilter ids.length)
      | _, _ => some (s, .raisedNoReply)
    else if mode = "last" then
      let rows := find_expenses s chat user (todayD - 3650) todayD none none
      match rows with
      | [] => some (s, .noRecords)
      | r :: _ => some (set_state s chat user [r.id], .confirmLast r.id)
    else detour_scan s chat user todayD rest
  | _ :: rest => detour_scan s chat user todayD rest

/-- `on_text` for a message that passed the transport gating: empty text is
dropped; a pending confirm_delete consumes the message as yes/no; otherwise
the plan (the validated LLM output for this utterance) is screened for the
confirmation detour and then executed. -/
def on_text (s : St) (chat user : Int) (todayD nowSec : Int) (raw0 : String)
    (plan : Plan) : St × Reply :=
  let raw := pyStrip raw0
  if raw = "" then (s, .ignored)
  else
    match get_state s chat user with
    | some ids => handle_confirm s chat user raw ids
    | none =>
      match plan with
      | .clarify q => (s, .clarify q)
      | .plan acts =>
        match detour_scan s chat user todayD acts with
        | some r => r
        | none =>
          let out := execute_plan chat user todayD nowSec s acts
          if out.raised then (out.state, .raisedNoReply)
          else (out.state, .finalReply out.results)

/-- The natural key of the `daily_overrides` unique index. -/
def okey (o : DailyOverride) : Int × Int × String × String × Int :=
  (o.chat, o.user, o.mainCategory, o.currency, o.day)

/-! ### Concrete states used by witnesses and counterexamples -/

/-- The spec scenario: daily budget 50000 UZS for coffee. -/
def scenBase : St := set_budget_base St.empty 1 1 "кофе" "UZS" (some 50000) none

/-- Day 1: spent 20000. -/
def scenDay2 : St := (add_expense scenBase 1 1 20000 "UZS" "кофе" "кофе" "" (1, 100)).2

/-- After the day-2 rollover has been persisted. -/
def scenRoll2 : St := (ensure_daily_rollover_for_today scenDay2 1 1 "кофе" "UZS" 2).2

/-- Day 2: spent 90000 (10000 over the 80000 effective limit). -/
def scenDay3 : St := (add_expense scenRoll2 1 1 90000 "UZS" "кофе" "кофе" "" (2, 200)).2

/-- A budget keyed by the empty category (reachable via a whitespace planner
field) next to a day-1 expense in a different category. -/
def emptyCatSt : St :=
  (add_expense (set_budget_base St.empty 1 1 "" "UZS" (some 50000) none)
    1 1 20000 "UZS" "еда" "еда" "" (1, 100)).2

/-- Two tenants: expense 0 belongs to (1,1), expense 1 to (2,2). -/
def twoTenantSt : St :=
  (add_expense (add_expense St.empty 1 1 700 "UZS" "еда" "еда" "" (4, 1)).2
    2 2 900 "UZS" "еда" "еда" "" (4, 2)).2

/-- A tenant with an existing override for day 5 and a base budget. -/
def overrideSt : St :=
  upsert_override (set_budget_base St.empty 1 1 "еда" "UZS" (some 50000) none)
    1 1 "еда" "UZS" 5 123 "заморожено"

/-- Zero daily and monthly limits with nonzero spending on day 3. -/
def zeroLimitSt : St :=
  (add_expense (set_budget_base St.empty 1 1 "еда" "UZS" (some 0) (some 0))
    1 1 100 "UZS" "еда" "еда" "" (3, 50)).2

/-- A single expense (id 0) for tenant (1,1). -/
def oneRowSt : St := (add_expense St.empty 1 1 500 "UZS" "еда" "кофе" "" (9, 5)).2

/-- Two expenses on day 5, category "еда", tenant (1,1). -/
def twoRowSt : St :=
  (add_expense (add_expense St.empty 1 1 300 "UZS" "еда" "кофе" "" (5, 1)).2
    1 1 400 "UZS" "еда" "обед" "" (5, 2)).2

/-! ### Helper lemmas about the store operations -/

theorem budgets_upsert_override (s : St) (c u : Int) (mc cur : String) (d : Int)
    (L : ℚ) (R : String) : (upsert_override s c u mc cur d L R).budgets = s.budgets := rfl

theorem expenses_upsert_override (s : St) (c u : Int) (mc cur : String) (d : Int)
    (L : ℚ) (R : String) : (upsert_override s c u mc cur d L R).expenses = s.expenses := rfl

theorem states_upsert_override (s : St) (c u : Int) (mc cur : String) (d : Int)
    (L : ℚ) (R : String) : (upsert_override s c u mc cur d L R).states = s.states := rfl

theorem ensure_expenses (s : St) (c u : Int) (mc cur : String) (d : Int) :
    (ensure_daily_rollover_for_today s c u mc cur d).2.expenses = s.expenses := by
  unfold ensure_daily_rollover_for_today
  split
  · rfl
  · split
    · rfl
    · split
      · rfl
      · rfl

theorem ensure_budgets (s : St) (c u : Int) (mc cur : String) (d : Int) :
    (ensure_daily_rollover_for_today s c u mc cur d).2.budgets = s.budgets := by
  unfold ensure_daily_rollover_for_today
  split
  · rfl
  · split
    · rfl
    · split
      · rfl
      · rfl

theorem ensure_states (s : St) (c u : Int) (mc cur : String) (d : Int) :
    (ensure_daily_rollover_for_today s c u mc cur d).2.states = s.states := by
  unfold ensure_daily_rollover_for_today
  split
  · rfl
  · split
    · rfl
    · split
      · rfl
      · rfl

theorem sum_expenses_congr {s1 s2 : St} (h : s1.expenses = s2.expenses)
    (c u start stop : Int) (mc cur : Option String) :
    sum_expenses s1 c u start stop mc cur = sum_expenses s2 c u start stop mc cur := by
  unfold sum_expenses
  cases mc <;> cases cur <;> rw [h]

theorem get_override_congr {s1 s2 : St} (h : s1.overrides = s2.overrides)
    (c u : Int) (mc cur : String) (d : Int) :
    get_override s1 c u mc cur d = get_override s2 c u mc cur d := by
  unfold get_override; rw [h]

theorem get_budget_base_congr {s1 s2 : St} (h : s1.budgets = s2.budgets)
    (c u : Int) (mc cur : String) :
    get_budget_base s1 c u mc cur = get_budget_base s2 c u mc cur := by
  unfold get_budget_base; rw [h]

theorem get_state_congr {s1 s2 : St} (h : s1.states = s2.states) (c u : Int) :
    get_state s1 c u = get_state s2 c u := by
  unfold get_state; rw [h]

theorem get_override_upsert_same (s : St) (c u : Int) (mc cur : String) (d : Int)
    (L : ℚ) (R : String) :
    get_override (upsert_override s c u mc cur d L R) c u mc cur d =
      some ⟨c, u, mc, cur, d, L, R⟩ := by
  unfold get_override upsert_override
  simp [List.find?]

theorem find?_filter_eq {α : Type} (l : List α) (p q : α → Bool)
    (h : ∀ x, p x = true → q x = true) :
    (l.filter q).find? p = l.find? p := by
  induction l with
  | nil => rfl
  | cons a t ih =>
    by_cases hq : q a = true
    · rw [List.filter_cons_of_pos hq]
      by_cases hp : p a = true
      · rw [List.find?_cons_of_pos _ hp, List.find?_cons_of_pos _ hp]
      · have hp' : ¬ p a := fun hc => hp hc
        rw [List.find?_cons_of_neg _ hp', List.find?_cons_of_neg _ hp']
        exact ih
    · have hqf : ¬ q a := fun hc => hq hc
      rw [List.filter_cons_of_neg hqf]
      have hp : ¬ p a = true := fun hc => hq (h a hc)
      rw [List.find?_cons_of_neg _ hp]
      exact ih

theorem get_override_upsert_ne (s : St) (c u : Int) (mc cur : String) (d : Int)
    (c' u' : Int) (mc' cur' : String) (d' : Int) (L : ℚ) (R : String)
    (hne : ¬(c = c' ∧ u = u' ∧ mc = mc' ∧ cur = cur' ∧ d = d')) :
    get_override (upsert_override s c' u' mc' cur' d' L R) c u mc cur d =
      get_override s c u mc cur d := by
  unfold get_override upsert_override
  have hhead : decide (c' = c ∧ u' = u ∧ mc' = mc ∧ cur' = cur ∧ d' = d) = false := by
    simp only [decide_eq_false_iff_not]
    rintro ⟨h1, h2, h3, h4, h5⟩
    exact hne ⟨h1.symm, h2.symm, h3.symm, h4.symm, h5.symm⟩
  simp only [List.find?, hhead]
  apply find?_filter_eq
  intro x hx
  simp only [decide_eq_true_eq] at hx ⊢
  rintro ⟨g1, g2, g3, g4, g5⟩
  exact hne ⟨hx.1 ▸ g1, hx.2.1 ▸ g2, hx.2.2.1 ▸ g3, hx.2.2.2.1 ▸ g4, hx.2.2.2.2 ▸ g5⟩

/-- An existing override survives any rollForward call (for any key/day). -/
theorem get_override_ensure_preserve (s : St) (c u : Int) (mc cur : String) (d : Int)
    (o : DailyOverride) (c' u' : Int) (mc' cur' : String) (d' : Int)
    (ho : get_override s c u mc cur d = some o) :
    get_override (ensure_daily_rollover_for_today s c' u' mc' cur' d').2 c u mc cur d =
      some o := by
  unfold ensure_daily_rollover_for_today
  split
  · exact ho
  · split
    · exact ho
    · split
      · exact ho
      · next hov =>
        have hne : ¬(c = c' ∧ u = u' ∧ mc = mc' ∧ cur = cur' ∧ d = d') := by
          rintro ⟨rfl, rfl, rfl, rfl, rfl⟩
          rw [ho] at hov
          exact Option.noConfusion hov
        exact (get_override_upsert_ne s c u mc cur d c' u' mc' cur' d' _ _ hne).trans ho

theorem ite_neg_max (x : ℚ) : (if x < 0 then (0 : ℚ) else x) = max 0 x := by
  rcases lt_or_le x 0 with h | h
  · simp [h, max_eq_left h.le]
  · simp [not_lt.mpr h, max_eq_right h]

/-! ### Claim theorems -/

/-- C2: rollForward is idempotent — if an override already exists for the day
the call performs no mutation, and calling it twice for the same key and day
leaves exactly the state of calling it once. -/
theorem C2_rollforward_idempotent (s : St) (c u : Int) (mc cur : String) (d : Int) :
    (∀ o, get_override s c u mc cur d = some o →
      ensure_daily_rollover_for_today s c u mc cur d = (none, s)) ∧
    ensure_daily_rollover_for_today
        (ensure_daily_rollover_for_today s c u mc cur d).2 c u mc cur d =
      (none, (ensure_daily_rollover_for_today s c u mc cur d).2) := by
  constructor
  · intro o ho
    unfold ensure_daily_rollover_for_today
    split
    · rfl
    · split
      · rfl
      · split
        · rfl
        · next hov => rw [ho] at hov; exact Option.noConfusion hov
  · cases hb : get_budget_base s c u mc cur with
    | none =>
      have h1 : ensure_daily_rollover_for_today s c u mc cur d = (none, s) := by
        simp only [ensure_daily_rollover_for_today, hb]
      rw [h1]
      simp only [ensure_daily_rollover_for_today, hb]
    | some b =>
      cases hd : b.dailyLimit with
      | none =>
        have h1 : ensure_daily_rollover_for_today s c u mc cur d = (none, s) := by
          simp only [ensure_daily_rollover_for_today, hb, hd]
        rw [h1]
        simp only [ensure_daily_rollover_for_today, hb, hd]
      | some bd =>
        cases ho : get_override s c u mc cur d with
        | some o =>
          have h1 : ensure_daily_rollover_for_today s c u mc cur d = (none, s) := by
            simp only [ensure_daily_rollover_for_today, hb, hd, ho]
          rw [h1]
          simp only [ensure_daily_rollover_for_today, hb, hd, ho]
        | none =>
          have hwrote : ∃ L R, (ensure_daily_rollover_for_today s c u mc cur d).2 =
              upsert_override s c u mc cur d L R := by
            simp only [ensure_daily_rollover_for_today, hb, hd, ho]
            exact ⟨_, _, rfl⟩
          obtain ⟨L, R, hw⟩ := hwrote
          rw [hw]
          have hb' : get_budget_base (upsert_override s c u mc cur d L R) c u mc cur =
              some b :=
            (get_budget_base_congr (budgets_upsert_override s c u mc cur d L R)
              c u mc cur).trans hb
          simp only [ensure_daily_rollover_for_today, hb', hd, get_override_upsert_same]

/-- C2 witness: rolling twice on the concrete scenario state is the same as
rolling once. -/
theorem C2_rollforward_idempotent_witness :
    ensure_daily_rollover_for_today scenRoll2 1 1 "кофе" "UZS" 2 = (none, scenRoll2) := by
  have h := (C2_rollforward_idempotent scenDay2 1 1 "кофе" "UZS" 2).2
  exact h

theorem set_budget_base_overrides (s : St) (c u : Int) (mc cur : String)
    (dl ml : Option ℚ) : (set_budget_base s c u mc cur dl ml).overrides = s.overrides := rfl

theorem add_expense_overrides (s : St) (c u : Int) (amt : ℚ) (cu m sc note : String)
    (ts : Int × Int) : (add_expense s c u amt cu m sc note ts).2.overrides = s.overrides := rfl

theorem add_expense_budgets (s : St) (c u : Int) (amt : ℚ) (cu m sc note : String)
    (ts : Int × Int) : (add_expense s c u amt cu m sc note ts).2.budgets = s.budgets := rfl

theorem add_expense_expenses (s : St) (c u : Int) (amt : ℚ) (cu m sc note : String)
    (ts : Int × Int) : (add_expense s c u amt cu m sc note ts).2.expenses =
      s.expenses ++ [⟨s.nextId, c, u, amt, cu, m, sc, note, ts, ts.1⟩] := rfl

theorem ensure_of_no_base (s : St) (c u : Int) (mc cur : String) (d : Int)
    (h : get_budget_base s c u mc cur = none) :
    ensure_daily_rollover_for_today s c u mc cur d = (none, s) := by
  simp only [ensure_daily_rollover_for_today, h]

theorem eff_none_of_no_budget (s : St) (c u : Int) (mc cur : String) (d : Int)
    (hov : get_override s c u mc cur d = none)
    (hb : get_budget_base s c u mc cur = none) :
    get_effective_daily_limit s c u mc cur d = none := by
  simp only [get_effective_daily_limit, hov, hb]

/-- With no override and no base row, calc_left_and_warn reports every limit
and remaining field as absent and both warnings as false. -/
theorem calc_no_budget (s : St) (c u : Int) (mc cur : String) (d : Int)
    (hov : get_override s c u mc cur d = none)
    (hb : get_budget_base s c u mc cur = none) :
    calc_left_and_warn s c u mc cur d =
      ⟨⟨none, sum_expenses s c u d d (some mc) (some cur), none, false, none⟩,
       ⟨none, sum_expenses s c u (month_start d) d (some mc) (some cur), none, false⟩⟩ := by
  have heff := eff_none_of_no_budget s c u mc cur d hov hb
  simp only [calc_left_and_warn, heff, hb, Option.map_none']

theorem sum_expenses_add_expense (t : St) (c u : Int) (amt : ℚ) (cu m sc note : String)
    (ts : Int × Int) (start stop : Int) (h1 : start ≤ ts.1) (h2 : ts.1 ≤ stop) :
    sum_expenses (add_expense t c u amt cu m sc note ts).2 c u start stop (some m) (some cu)
      = sum_expenses t c u start stop (some m) (some cu) + amt := by
  simp only [sum_expenses]
  rw [add_expense_expenses]
  by_cases hcase : m = "" ∨ cu = ""
  · rw [if_pos hcase, if_pos hcase, List.filter_append, List.map_append, List.sum_append]
    simp [h1, h2]
  · rw [if_neg hcase, if_neg hcase, List.filter_append, List.map_append, List.sum_append]
    simp [h1, h2]

/-- For a non-empty category and currency the source's sum agrees with the
claim's per-category/currency sum. -/
theorem sum_expenses_eq_spec (s : St) (c u : Int) (start stop : Int) (m cu : String)
    (hm : m ≠ "") (hcu : cu ≠ "") :
    sum_expenses s c u start stop (some m) (some cu) =
      sum_expenses_spec s c u start stop m cu := by
  simp only [sum_expenses, sum_expenses_spec]
  rw [if_neg]
  rintro (h | h)
  · exact hm h
  · exact hcu h

/-- With an empty category or currency the source drops both filters and sums
every expense of the tenant in the range. -/
theorem sum_expenses_empty_unfiltered (s : St) (c u : Int) (start stop : Int)
    (m cu : String) (h : m = "" ∨ cu = "") :
    sum_expenses s c u start stop (some m) (some cu) =
      sum_expenses s c u start stop none none := by
  simp only [sum_expenses]
  rw [if_pos h]

/-- C1 counterexample: at the reachable key (category "", currency "UZS")
with daily budget 50000 and a day-1 spend of 20000 recorded under category
"еда", every hypothesis of the carryover claim holds (base configured, no
override for day 2, yesterday's effective limit L = 50000) and the claim's S —
the per-category/currency spend — is 0, so the claim demands
max(0, 50000 + (50000 - 0)) = 100000; the code persists 80000 instead,
because `sum_expenses` drops both filters at a falsy category and counts the
unrelated 20000. -/
theorem C1_counterexample :
    get_budget_base emptyCatSt 1 1 "" "UZS" = some ⟨1, 1, "", "UZS", some 50000, none⟩ ∧
    get_override emptyCatSt 1 1 "" "UZS" 2 = none ∧
    (get_effective_daily_limit emptyCatSt 1 1 "" "UZS" 1).map EffLimit.limit
      = some 50000 ∧
    sum_expenses_spec emptyCatSt 1 1 1 1 "" "UZS" = 0 ∧
    (get_override (ensure_daily_rollover_for_today emptyCatSt 1 1 "" "UZS" 2).2
        1 1 "" "UZS" 2).map DailyOverride.effectiveLimit = some 80000 ∧
    some (80000 : ℚ) ≠ some (max 0 (50000 + (50000 - 0)) : ℚ) := by
  refine ⟨by decide, by decide, ?_, ?_, ?_, ?_⟩
  · norm_num [get_effective_daily_limit, get_override, get_budget_base, emptyCatSt,
      set_budget_base, add_expense, St.empty, List.find?]
  · have hne : ¬ (("еда" : String) = "") := by decide
    norm_num [sum_expenses_spec, emptyCatSt, set_budget_base, add_expense, St.empty, hne]
  · norm_num [ensure_daily_rollover_for_today, get_budget_base, get_override,
      get_effective_daily_limit, upsert_override, sum_expenses, emptyCatSt,
      set_budget_base, add_expense, St.empty, List.find?, rollReason, decStr]
  · norm_num

/-- C1 amended: the carryover law — with a base daily limit `bd` configured
and no override yet for day `d`, rollForward persists an override for `d`
whose limit is `max 0 (bd + (L - S))`, `L` being the effective limit of day
`d-1` (falling back to `bd`); for a non-empty category and currency `S` is
the tenant's spend for that category/currency on day `d-1` as the claim
states, while for an empty-string category or currency (reachable via
whitespace planner fields) `S` is the tenant's unfiltered day-`d-1` total
across all categories and currencies. -/
theorem C1_carryover_law_amended (s : St) (c u : Int) (mc cur : String) (d : Int)
    (b : BudgetBase) (bd L : ℚ)
    (hb : get_budget_base s c u mc cur = some b)
    (hbd : b.dailyLimit = some bd)
    (hno : get_override s c u mc cur d = none)
    (hL : L = (match get_effective_daily_limit s c u mc cur (d - 1) with
               | some e => e.limit
               | none => bd)) :
    (mc ≠ "" → cur ≠ "" →
      (get_override (ensure_daily_rollover_for_today s c u mc cur d).2 c u mc cur d).map
          DailyOverride.effectiveLimit
        = some (max 0 (bd + (L - sum_expenses_spec s c u (d - 1) (d - 1) mc cur)))) ∧
    (mc = "" ∨ cur = "" →
      (get_override (ensure_daily_rollover_for_today s c u mc cur d).2 c u mc cur d).map
          DailyOverride.effectiveLimit
        = some (max 0 (bd + (L - sum_expenses s c u (d - 1) (d - 1) none none)))) := by
  subst hL
  constructor
  · intro hmc hcur
    simp only [ensure_daily_rollover_for_today, hb, hbd, hno]
    rw [get_override_upsert_same]
    simp only [Option.map_some']
    rw [sum_expenses_eq_spec s c u (d - 1) (d - 1) mc cur hmc hcur, ite_neg_max]
  · intro hor
    simp only [ensure_daily_rollover_for_today, hb, hbd, hno]
    rw [get_override_upsert_same]
    simp only [Option.map_some']
    rw [sum_expenses_empty_unfiltered s c u (d - 1) (d - 1) mc cur hor, ite_neg_max]

/-- C1 witness: the spec scenario under a real category — daily budget 50000
for "кофе", day-1 spend 20000 gives day-2 limit 80000 and day-2 spend 90000
gives day-3 limit 40000; and the empty-category corner where the persisted
limit uses the unfiltered spend. -/
theorem C1_carryover_law_amended_witness :
    (get_override (ensure_daily_rollover_for_today scenDay2 1 1 "кофе" "UZS" 2).2
        1 1 "кофе" "UZS" 2).map DailyOverride.effectiveLimit = some 80000 ∧
    (get_override (ensure_daily_rollover_for_today scenDay3 1 1 "кофе" "UZS" 3).2
        1 1 "кофе" "UZS" 3).map DailyOverride.effectiveLimit = some 40000 ∧
    (get_override (ensure_daily_rollover_for_today emptyCatSt 1 1 "" "UZS" 2).2
        1 1 "" "UZS" 2).map DailyOverride.effectiveLimit = some 80000 := by
  have hkc : (("кофе" : String) = "" ∨ ("UZS" : String) = "") ↔ False := by
    simp only [iff_false]
    decide
  refine ⟨?_, ?_, ?_⟩
  · have h := (C1_carryover_law_amended scenDay2 1 1 "кофе" "UZS" 2
      ⟨1, 1, "кофе", "UZS", some 50000, none⟩ 50000 50000
      (by decide) (by decide) (by decide)
      (by norm_num [get_effective_daily_limit, get_override, scenDay2, scenBase, St.empty,
        set_budget_base, add_expense, get_budget_base, List.find?])).1
      (by decide) (by decide)
    rw [h]
    norm_num [sum_expenses_spec, scenDay2, scenBase, St.empty, set_budget_base, add_expense]
  · have h := (C1_carryover_law_amended scenDay3 1 1 "кофе" "UZS" 3
      ⟨1, 1, "кофе", "UZS", some 50000, none⟩ 50000 80000
      (by decide) (by decide) (by decide)
      (by norm_num [get_effective_daily_limit, get_override, scenDay3, scenRoll2, scenDay2,
        scenBase, St.empty, set_budget_base, add_expense, upsert_override,
        ensure_daily_rollover_for_today, get_budget_base, sum_expenses, List.find?,
        rollReason, decStr, hkc])).1
      (by decide) (by decide)
    rw [h]
    norm_num [sum_expenses_spec, scenDay3, scenRoll2, scenDay2, scenBase, St.empty,
      set_budget_base, add_expense, upsert_override, ensure_daily_rollover_for_today,
      get_budget_base, get_override, get_effective_daily_limit, sum_expenses, List.find?,
      rollReason, decStr, hkc]
  · have h := (C1_carryover_law_amended emptyCatSt 1 1 "" "UZS" 2
      ⟨1, 1, "", "UZS", some 50000, none⟩ 50000 50000
      (by decide) (by decide) (by decide)
      (by norm_num [get_effective_daily_limit, get_override, get_budget_base, emptyCatSt,
        set_budget_base, add_expense, St.empty, List.find?])).2
      (Or.inl rfl)
    rw [h]
    norm_num [sum_expenses, emptyCatSt, set_budget_base, add_expense, St.empty]

/-- C5: the effective daily limit resolves as override first, else the base
daily limit, else absent; and when absent (no budget configured) add_expense
still succeeds and reports the remaining-budget fields as absent, not zero. -/
theorem C5_resolution_and_absent (s : St) (c u td ns : Int) (amt : ℚ)
    (cur0 mc0 sc0 note0 : Option String)
    (hov : get_override s c u (pyStrip (pyLower (pyOr mc0 "other")))
      (pyStrip (pyUpper (pyOr cur0 DEFAULT_CURRENCY))) td = none)
    (hb : get_budget_base s c u (pyStrip (pyLower (pyOr mc0 "other")))
      (pyStrip (pyUpper (pyOr cur0 DEFAULT_CURRENCY))) = none) :
    (∀ c1 u1 mc1 cur1 d1 o, get_override s c1 u1 mc1 cur1 d1 = some o →
      get_effective_daily_limit s c1 u1 mc1 cur1 d1 =
        some ⟨o.effectiveLimit, o.reason, "override"⟩) ∧
    (∀ c1 u1 mc1 cur1 d1 b dl, get_override s c1 u1 mc1 cur1 d1 = none →
      get_budget_base s c1 u1 mc1 cur1 = some b → b.dailyLimit = some dl →
      get_effective_daily_limit s c1 u1 mc1 cur1 d1 =
        some ⟨dl, "базовый дневной бюджет", "base"⟩) ∧
    (∀ c1 u1 mc1 cur1 d1, get_override s c1 u1 mc1 cur1 d1 = none →
      (get_budget_base s c1 u1 mc1 cur1 = none ∨
        ∃ b, get_budget_base s c1 u1 mc1 cur1 = some b ∧ b.dailyLimit = none) →
      get_effective_daily_limit s c1 u1 mc1 cur1 d1 = none) ∧
    ((exec_action c u td ns s
        (.add_expense (.val amt) cur0 mc0 sc0 note0 .missing)).isSome = true ∧
      (exec_action c u td ns s
        (.add_expense (.val amt) cur0 mc0 sc0 note0 .missing)).map
          (fun p => p.1.expenses.length) = some (s.expenses.length + 1) ∧
      ((exec_action c u td ns s
        (.add_expense (.val amt) cur0 mc0 sc0 note0 .missing)).bind
          (fun p => p.2.budgetInfo?)).map
          (fun i => (i.daily.limit, i.daily.left, i.daily.warn,
                     i.monthly.limit, i.monthly.left, i.monthly.warn))
        = some (none, none, false, none, none, false)) := by
  refine ⟨?_, ?_, ?_, ?_⟩
  · intro c1 u1 mc1 cur1 d1 o h
    simp only [get_effective_daily_limit, h]
  · intro c1 u1 mc1 cur1 d1 b dl h1 h2 h3
    simp only [get_effective_daily_limit, h1, h2, h3]
  · intro c1 u1 mc1 cur1 d1 h1 h2
    rcases h2 with h2 | ⟨b, hb2, hd2⟩
    · simp only [get_effective_daily_limit, h1, h2]
    · simp only [get_effective_daily_limit, h1, hb2, hd2]
  · have hroll := ensure_of_no_base s c u
      (pyStrip (pyLower (pyOr mc0 "other"))) (pyStrip (pyUpper (pyOr cur0 DEFAULT_CURRENCY))) td hb
    have hov2 : get_override
        (add_expense s c u amt (pyStrip (pyUpper (pyOr cur0 DEFAULT_CURRENCY)))
          (pyStrip (pyLower (pyOr mc0 "other")))
          (pyStrip (pyLower (pyOr sc0 (pyStrip (pyLower (pyOr mc0 "other"))))))
          (pyStrip (pyOr note0 "")) (td, ns)).2 c u
        (pyStrip (pyLower (pyOr mc0 "other"))) (pyStrip (pyUpper (pyOr cur0 DEFAULT_CURRENCY))) td
        = none :=
      (get_override_congr (add_expense_overrides s c u amt _ _ _ _ _) _ _ _ _ _).trans hov
    have hb2 : get_budget_base
        (add_expense s c u amt (pyStrip (pyUpper (pyOr cur0 DEFAULT_CURRENCY)))
          (pyStrip (pyLower (pyOr mc0 "other")))
          (pyStrip (pyLower (pyOr sc0 (pyStrip (pyLower (pyOr mc0 "other"))))))
          (pyStrip (pyOr note0 "")) (td, ns)).2 c u
        (pyStrip (pyLower (pyOr mc0 "other"))) (pyStrip (pyUpper (pyOr cur0 DEFAULT_CURRENCY)))
        = none :=
      (get_budget_base_congr (add_expense_budgets s c u amt _ _ _ _ _) _ _ _ _).trans hb
    have hcalc := calc_no_budget _ c u
      (pyStrip (pyLower (pyOr mc0 "other"))) (pyStrip (pyUpper (pyOr cur0 DEFAULT_CURRENCY))) td
      hov2 hb2
    refine ⟨?_, ?_, ?_⟩
    · simp only [exec_action, hroll, Option.isSome_some]
    · simp only [exec_action, hroll, Option.map_some', add_expense_expenses,
        List.length_append, List.length_cons, List.length_nil]
    · simp only [exec_action, hroll, Option.some_bind, ActionResult.budgetInfo?,
        Option.map_some', hcalc]

/-- C5 witness: no budget ever set for "transport" — add_expense(12000)
succeeds, one row is recorded, and every remaining-budget field is absent. -/
theorem C5_resolution_and_absent_witness :
    (exec_action 1 1 10 0 St.empty
        (.add_expense (.val 12000) none (some "transport") none none .missing)).isSome
      = true ∧
    (exec_action 1 1 10 0 St.empty
        (.add_expense (.val 12000) none (some "transport") none none .missing)).map
        (fun p => p.1.expenses.length) = some (St.empty.expenses.length + 1) ∧
    ((exec_action 1 1 10 0 St.empty
        (.add_expense (.val 12000) none (some "transport") none none .missing)).bind
        (fun p => p.2.budgetInfo?)).map
        (fun i => (i.daily.limit, i.daily.left, i.daily.warn,
                   i.monthly.limit, i.monthly.left, i.monthly.warn))
      = some (none, none, false, none, none, false) :=
  (C5_resolution_and_absent St.empty 1 1 10 0 12000 none (some "transport") none none
    (by decide) (by decide)).2.2.2

/-- C6: after a valid add_expense of amount `amt` on day `d`, the tenant's
`sum(d, d, category, currency)` is exactly its previous value plus `amt` —
exact arithmetic (rationals here, Decimal/NUMERIC in the code), never a
floating-point approximation. -/
theorem C6_sum_increases_exactly (s : St) (c u td ns : Int) (amt : ℚ) (d : Int)
    (cur0 mc0 sc0 note0 : Option String) :
    (exec_action c u td ns s (.add_expense (.val amt) cur0 mc0 sc0 note0 (.val d))).map
        (fun p => sum_expenses p.1 c u d d
          (some (pyStrip (pyLower (pyOr mc0 "other"))))
          (some (pyStrip (pyUpper (pyOr cur0 DEFAULT_CURRENCY)))))
      = some (sum_expenses s c u d d
          (some (pyStrip (pyLower (pyOr mc0 "other"))))
          (some (pyStrip (pyUpper (pyOr cur0 DEFAULT_CURRENCY)))) + amt) := by
  simp only [exec_action, Option.map_some']
  rw [sum_expenses_add_expense _ _ _ _ _ _ _ _ _ _ _ (le_refl d) (le_refl d)]
  rw [sum_expenses_congr (ensure_expenses s c u
    (pyStrip (pyLower (pyOr mc0 "other"))) (pyStrip (pyUpper (pyOr cur0 DEFAULT_CURRENCY))) d)]

/-- C6 witness: a concrete run — adding 12000 on day 5 to the empty ledger
raises that day's category sum from 0 to 12000. -/
theorem C6_sum_increases_exactly_witness :
    (exec_action 1 1 10 0 St.empty
        (.add_expense (.val 12000) none (some "транспорт") none none (.val 5))).map
        (fun p => sum_expenses p.1 1 1 5 5
          (some (pyStrip (pyLower (pyOr (some "транспорт") "other"))))
          (some (pyStrip (pyUpper (pyOr none DEFAULT_CURRENCY)))))
      = some (sum_expenses St.empty 1 1 5 5
          (some (pyStrip (pyLower (pyOr (some "транспорт") "other"))))
          (some (pyStrip (pyUpper (pyOr none DEFAULT_CURRENCY)))) + 12000) :=
  C6_sum_increases_exactly St.empty 1 1 10 0 12000 5 none (some "транспорт") none none

/-- C7: delete(chat, user, ids) removes exactly the tenant-owned rows whose id
is in the list, returns the size of that intersection, silently ignores
missing ids, and never removes another tenant's rows. -/
theorem C7_delete_exact (s : St) (c u : Int) (ids : List Nat) :
    (delete_expenses_by_ids s c u ids).1 =
      (s.expenses.filter
        (fun e => decide (e.chat = c ∧ e.user = u ∧ e.id ∈ ids))).length ∧
    (∀ e, e ∈ (delete_expenses_by_ids s c u ids).2.expenses ↔
      e ∈ s.expenses ∧ ¬(e.chat = c ∧ e.user = u ∧ e.id ∈ ids)) ∧
    (∀ e, e ∈ s.expenses → ¬(e.chat = c ∧ e.user = u) →
      e ∈ (delete_expenses_by_ids s c u ids).2.expenses) := by
  by_cases hids : ids = []
  · subst hids
    refine ⟨?_, ?_, ?_⟩
    · simp [delete_expenses_by_ids]
    · intro e
      simp [delete_expenses_by_ids]
    · intro e he _
      simpa [delete_expenses_by_ids] using he
  · refine ⟨?_, ?_, ?_⟩
    · simp [delete_expenses_by_ids, hids]
    · intro e
      simp [delete_expenses_by_ids, hids, List.mem_filter, and_comm]
      tauto
    · intro e he hno
      simp only [delete_expenses_by_ids, hids, if_neg hids, List.mem_filter]
      refine List.mem_filter.mpr ⟨he, ?_⟩
      simp only [decide_eq_true_eq]
      intro hcon
      exact hno ⟨hcon.1, hcon.2.1⟩

/-- C7 witness: ids {0, 99} against two tenants — only tenant (1,1)'s row 0 is
removed (the missing id 99 is ignored), the count is 1, and tenant (2,2)'s
row survives. -/
theorem C7_delete_exact_witness :
    (delete_expenses_by_ids twoTenantSt 1 1 [0, 99]).1 = 1 ∧
    (⟨1, 2, 2, 900, "UZS", "еда", "еда", "", (4, 2), 4⟩ : Expense) ∈
      (delete_expenses_by_ids twoTenantSt 1 1 [0, 99]).2.expenses := by
  constructor
  · rw [(C7_delete_exact twoTenantSt 1 1 [0, 99]).1]
    decide
  · exact (C7_delete_exact twoTenantSt 1 1 [0, 99]).2.2 _ (by decide) (by decide)

/-- upsert_override keeps the at-most-one-override-per-key invariant. -/
theorem upsert_override_nodup (s : St) (c1 u1 : Int) (mc1 cur1 : String) (d1 : Int)
    (L : ℚ) (R : String) (hu : (s.overrides.map okey).Nodup) :
    ((upsert_override s c1 u1 mc1 cur1 d1 L R).overrides.map okey).Nodup := by
  unfold upsert_override
  simp only [List.map_cons, List.nodup_cons]
  constructor
  · intro hmem
    rcases List.mem_map.mp hmem with ⟨x, hxmem, hxkey⟩
    rcases List.mem_filter.mp hxmem with ⟨_, hxq⟩
    simp only [decide_eq_true_eq] at hxq
    simp only [okey, Prod.mk.injEq] at hxkey
    exact hxq ⟨hxkey.1, hxkey.2.1, hxkey.2.2.1, hxkey.2.2.2.1, hxkey.2.2.2.2⟩
  · exact ((List.filter_sublist _).map okey).nodup hu

/-- rollForward keeps the at-most-one-override-per-key invariant. -/
theorem ensure_nodup (s : St) (c1 u1 : Int) (mc1 cur1 : String) (d1 : Int)
    (hu : (s.overrides.map okey).Nodup) :
    (((ensure_daily_rollover_for_today s c1 u1 mc1 cur1 d1).2.overrides).map okey).Nodup := by
  unfold ensure_daily_rollover_for_today
  split
  · exact hu
  · split
    · exact hu
    · split
      · exact hu
      · exact upsert_override_nodup s c1 u1 mc1 cur1 d1 _ _ hu

/-- C8: at most one DailyOverride per (chat, user, category, currency, day),
and once one exists for a day no later engine operation (another rollForward,
set_budget, or the executor's set_budget action) rewrites that day's
effective limit. -/
theorem C8_first_write_wins (s : St) (c u : Int) (mc cur : String) (d : Int)
    (o : DailyOverride)
    (hu : (s.overrides.map okey).Nodup)
    (ho : get_override s c u mc cur d = some o) :
    (∀ c1 u1 mc1 cur1 d1,
      get_override (ensure_daily_rollover_for_today s c1 u1 mc1 cur1 d1).2
        c u mc cur d = some o) ∧
    (∀ c1 u1 mc1 cur1 dl ml,
      get_override (set_budget_base s c1 u1 mc1 cur1 dl ml) c u mc cur d = some o) ∧
    (∀ c1 u1 td ns mc0 cur0 dl0 ml0 p,
      exec_action c1 u1 td ns s (.set_budget mc0 cur0 dl0 ml0) = some p →
      get_override p.1 c u mc cur d = some o) ∧
    (∀ c1 u1 mc1 cur1 d1 L R,
      ((upsert_override s c1 u1 mc1 cur1 d1 L R).overrides.map okey).Nodup) ∧
    (∀ c1 u1 mc1 cur1 d1,
      (((ensure_daily_rollover_for_today s c1 u1 mc1 cur1 d1).2.overrides).map okey).Nodup) := by
  refine ⟨?_, ?_, ?_, ?_, ?_⟩
  · intro c1 u1 mc1 cur1 d1
    exact get_override_ensure_preserve s c u mc cur d o c1 u1 mc1 cur1 d1 ho
  · intro c1 u1 mc1 cur1 dl ml
    exact (get_override_congr (set_budget_base_overrides s c1 u1 mc1 cur1 dl ml)
      c u mc cur d).trans ho
  · intro c1 u1 td ns mc0 cur0 dl0 ml0 p hp
    cases hdl : decField? dl0 with
    | none =>
      simp only [exec_action, hdl] at hp
      exact Option.noConfusion hp
    | some dl =>
      cases hml : decField? ml0 with
      | none =>
        simp only [exec_action, hdl, hml] at hp
        exact Option.noConfusion hp
      | some ml =>
        simp only [exec_action, hdl, hml, Option.some.injEq] at hp
        subst hp
        have hset : get_override
            (set_budget_base s c1 u1 (pyStrip (pyLower (pyOr mc0 "other")))
              (pyStrip (pyUpper (pyOr cur0 DEFAULT_CURRENCY))) dl ml) c u mc cur d = some o :=
          (get_override_congr (set_budget_base_overrides _ _ _ _ _ _ _) c u mc cur d).trans ho
        by_cases hsome : dl.isSome
        · simp only [hsome, if_true]
          exact get_override_ensure_preserve _ c u mc cur d o _ _ _ _ _ hset
        · simp only [hsome, if_false]
          exact hset
  · intro c1 u1 mc1 cur1 d1 L R
    exact upsert_override_nodup s c1 u1 mc1 cur1 d1 L R hu
  · intro c1 u1 mc1 cur1 d1
    exact ensure_nodup s c1 u1 mc1 cur1 d1 hu

/-- C8 witness: the frozen day-5 override (limit 123) survives both a
rollForward for day 7 and a set_budget that changes the base limits. -/
theorem C8_first_write_wins_witness :
    get_override (ensure_daily_rollover_for_today overrideSt 1 1 "еда" "UZS" 7).2
        1 1 "еда" "UZS" 5 = some ⟨1, 1, "еда", "UZS", 5, 123, "заморожено"⟩ ∧
    get_override (set_budget_base overrideSt 1 1 "еда" "UZS" (some 999) (some 1))
        1 1 "еда" "UZS" 5 = some ⟨1, 1, "еда", "UZS", 5, 123, "заморожено"⟩ := by
  have h := C8_first_write_wins overrideSt 1 1 "еда" "UZS" 5
    ⟨1, 1, "еда", "UZS", 5, 123, "заморожено"⟩ (by decide) (by decide)
  exact ⟨h.1 1 1 "еда" "UZS" 7, h.2.1 1 1 "еда" "UZS" (some 999) (some 1)⟩

/-- C10: the sub-10% warning flags are computed only under the guard
`limit > 0`, so a limit that is not strictly positive can never raise a
warning (and the ratio is never a division by zero). -/
theorem C10_warn_guard (s : St) (c u : Int) (mc cur : String) (d : Int) :
    (∀ L, (calc_left_and_warn s c u mc cur d).daily.limit = some L → L ≤ 0 →
      (calc_left_and_warn s c u mc cur d).daily.warn = false) ∧
    (∀ M, (calc_left_and_warn s c u mc cur d).monthly.limit = some M → M ≤ 0 →
      (calc_left_and_warn s c u mc cur d).monthly.warn = false) := by
  constructor
  · intro L hL hle
    simp only [calc_left_and_warn] at hL ⊢
    split
    · next l heq =>
      rw [heq] at hL
      simp only [Option.some.injEq] at hL
      apply decide_eq_false
      rintro ⟨hpos, _⟩
      rw [hL] at hpos
      exact absurd hpos (not_lt.mpr hle)
    · rfl
  · intro M hM hle
    simp only [calc_left_and_warn] at hM ⊢
    split
    · next m heq =>
      rw [heq] at hM
      simp only [Option.some.injEq] at hM
      apply decide_eq_false
      rintro ⟨hpos, _⟩
      rw [hM] at hpos
      exact absurd hpos (not_lt.mpr hle)
    · rfl

/-- C10 witness: daily and monthly limits of exactly 0 with 100 spent raise no
warning. -/
theorem C10_warn_guard_witness :
    (calc_left_and_warn zeroLimitSt 1 1 "еда" "UZS" 3).daily.warn = false ∧
    (calc_left_and_warn zeroLimitSt 1 1 "еда" "UZS" 3).monthly.warn = false :=
  ⟨(C10_warn_guard zeroLimitSt 1 1 "еда" "UZS" 3).1 0 (by decide) (le_refl 0),
   (C10_warn_guard zeroLimitSt 1 1 "еда" "UZS" 3).2 0 (by decide) (le_refl 0)⟩

/-! ### Helper lemmas about the handler state machine -/

theorem get_state_set_state (s : St) (c u : Int) (ids : List Nat) :
    get_state (set_state s c u ids) c u = some ids := by
  simp [get_state, set_state, List.find?]

theorem get_state_clear_state (s : St) (c u : Int) :
    get_state (clear_state s c u) c u = none := by
  unfold get_state clear_state
  have h : List.find? (fun p => decide (p.1 = (c, u)))
      (s.states.filter (fun p => decide (p.1 ≠ (c, u)))) = none := by
    rw [List.find?_eq_none]
    intro x hx
    rcases List.mem_filter.mp hx with ⟨_, hq⟩
    simp only [decide_eq_true_eq] at hq
    simp only [decide_eq_true_eq]
    exact hq
  simp [h]

theorem set_state_expenses (s : St) (c u : Int) (ids : List Nat) :
    (set_state s c u ids).expenses = s.expenses := rfl

theorem clear_state_expenses (s : St) (c u : Int) :
    (clear_state s c u).expenses = s.expenses := rfl

theorem delete_states (s : St) (c u : Int) (ids : List Nat) :
    (delete_expenses_by_ids s c u ids).2.states = s.states := by
  unfold delete_expenses_by_ids
  split <;> rfl

theorem on_text_pending (s : St) (c u td ns : Int) (raw : String) (plan : Plan)
    (ids : List Nat) (hraw : ¬ pyStrip raw = "") (hp : get_state s c u = some ids) :
    on_text s c u td ns raw plan = handle_confirm s c u (pyStrip raw) ids := by
  simp only [on_text, if_neg hraw, hp]

theorem on_text_no_pending_plan (s : St) (c u td ns : Int) (raw : String)
    (acts : List Action) (hraw : ¬ pyStrip raw = "") (hpend : get_state s c u = none) :
    on_text s c u td ns raw (.plan acts) =
      (match detour_scan s c u td acts with
       | some r => r
       | none =>
         if (execute_plan c u td ns s acts).raised
         then ((execute_plan c u td ns s acts).state, .raisedNoReply)
         else ((execute_plan c u td ns s acts).state,
               .finalReply (execute_plan c u td ns s acts).results)) := by
  simp only [on_text, if_neg hraw, hpend]

theorem handle_confirm_yes (s : St) (c u : Int) (raw : String) (ids : List Nat)
    (hin : pyStrip (pyLower raw) ∈ yes_vocab) :
    handle_confirm s c u raw ids =
      (clear_state (delete_expenses_by_ids s c u ids).2 c u,
       .deletedCount (delete_expenses_by_ids s c u ids).1) := by
  simp only [handle_confirm, if_pos hin]

theorem handle_confirm_no (s : St) (c u : Int) (raw : String) (ids : List Nat)
    (h1 : pyStrip (pyLower raw) ∉ yes_vocab) (h2 : pyStrip (pyLower raw) ∈ no_vocab) :
    handle_confirm s c u raw ids = (clear_state s c u, .cancelled) := by
  simp only [handle_confirm, if_neg h1, if_pos h2]

theorem handle_confirm_other (s : St) (c u : Int) (raw : String) (ids : List Nat)
    (h1 : pyStrip (pyLower raw) ∉ yes_vocab) (h2 : pyStrip (pyLower raw) ∉ no_vocab) :
    handle_confirm s c u raw ids = (s, .askYesNo) := by
  simp only [handle_confirm, if_neg h1, if_neg h2]

theorem detour_scan_filter_val (s : St) (c u td : Int) (rid0 : FieldV Nat)
    (st en : Int) (mc0 sc0 : Option String) (rest : List Action) :
    detour_scan s c u td
        (.delete_expense (some "filter") rid0 (.val st) (.val en) mc0 sc0 :: rest) =
      (if ((find_expenses s c u st en (normFilterCat mc0) (normFilterCat sc0)).map
            (fun e => e.id)).length = 0
       then some (s, .nothingMatched)
       else some (set_state s c u
              (((find_expenses s c u st en (normFilterCat mc0) (normFilterCat sc0)).map
                (fun e => e.id)).take 200),
            .confirmFilter ((find_expenses s c u st en
              (normFilterCat mc0) (normFilterCat sc0)).map (fun e => e.id)).length)) := rfl

theorem detour_scan_last_mode (s : St) (c u td : Int) (rid0 : FieldV Nat)
    (sd ed : FieldV Int) (mc0 sc0 : Option String) (rest : List Action) :
    detour_scan s c u td (.delete_expense (some "last") rid0 sd ed mc0 sc0 :: rest) =
      (match find_expenses s c u (td - 3650) td none none with
       | [] => some (s, .noRecords)
       | r :: _ => some (set_state s c u [r.id], .confirmLast r.id)) := rfl

theorem detour_scan_by_id (s : St) (c u td : Int) (rid0 : FieldV Nat)
    (sd ed : FieldV Int) (mc0 sc0 : Option String) (rest : List Action) :
    detour_scan s c u td (.delete_expense (some "by_id") rid0 sd ed mc0 sc0 :: rest) =
      detour_scan s c u td rest := rfl

theorem exec_action_by_id (c u td ns : Int) (s : St) (rid : Nat)
    (sd ed : FieldV Int) (mc0 sc0 : Option String) :
    exec_action c u td ns s (.delete_expense (some "by_id") (.val rid) sd ed mc0 sc0) =
      some ((delete_expenses_by_ids s c u [rid]).2,
        .delete_expense "by_id" (delete_expenses_by_ids s c u [rid]).1 [rid] none) := rfl

theorem execute_plan_singleton (c u td ns : Int) (s : St) (a : Action) (s1 : St)
    (r : ActionResult) (h : exec_action c u td ns s a = some (s1, r)) :
    execute_plan c u td ns s [a] = ⟨s1, [r], false⟩ := by
  simp only [execute_plan, h]
  rfl

/-- C3: a filter-mode delete matching zero rows never creates a PendingAction
and replies that nothing matched; matching rows only records a PendingAction
(no row is removed) and asks for confirmation; on the next turn "yes" deletes
the pending ids, "no" clears the pending state with the ledger unchanged, and
anything else re-prompts without consuming the state. -/
theorem C3_filter_delete_confirmation (s : St) (c u td ns : Int) (raw : String)
    (rid0 : FieldV Nat) (st en : Int) (mc0 sc0 : Option String) (rest : List Action)
    (hraw : ¬ pyStrip raw = "") (hpend : get_state s c u = none) :
    (find_expenses s c u st en (normFilterCat mc0) (normFilterCat sc0) = [] →
      on_text s c u td ns raw
        (.plan (.delete_expense (some "filter") rid0 (.val st) (.val en) mc0 sc0 :: rest))
        = (s, .nothingMatched)) ∧
    (find_expenses s c u st en (normFilterCat mc0) (normFilterCat sc0) ≠ [] →
      on_text s c u td ns raw
        (.plan (.delete_expense (some "filter") rid0 (.val st) (.val en) mc0 sc0 :: rest))
        = (set_state s c u
            (((find_expenses s c u st en (normFilterCat mc0) (normFilterCat sc0)).map
              (fun e => e.id)).take 200),
           .confirmFilter
             (find_expenses s c u st en (normFilterCat mc0) (normFilterCat sc0)).length) ∧
      (set_state s c u
          (((find_expenses s c u st en (normFilterCat mc0) (normFilterCat sc0)).map
            (fun e => e.id)).take 200)).expenses = s.expenses) ∧
    (∀ ids raw2 plan2, ¬ pyStrip raw2 = "" →
      (pyStrip (pyLower (pyStrip raw2)) ∈ yes_vocab →
        on_text (set_state s c u ids) c u td ns raw2 plan2 =
          (clear_state (delete_expenses_by_ids (set_state s c u ids) c u ids).2 c u,
           .deletedCount (delete_expenses_by_ids (set_state s c u ids) c u ids).1)) ∧
      (pyStrip (pyLower (pyStrip raw2)) ∉ yes_vocab → pyStrip (pyLower (pyStrip raw2)) ∈ no_vocab →
        on_text (set_state s c u ids) c u td ns raw2 plan2 =
          (clear_state (set_state s c u ids) c u, .cancelled) ∧
        (clear_state (set_state s c u ids) c u).expenses = s.expenses ∧
        get_state (clear_state (set_state s c u ids) c u) c u = none) ∧
      (pyStrip (pyLower (pyStrip raw2)) ∉ yes_vocab → pyStrip (pyLower (pyStrip raw2)) ∉ no_vocab →
        on_text (set_state s c u ids) c u td ns raw2 plan2 =
          (set_state s c u ids, .askYesNo))) := by
  refine ⟨?_, ?_, ?_⟩
  · intro hrows
    rw [on_text_no_pending_plan s c u td ns raw _ hraw hpend, detour_scan_filter_val, hrows]
    simp
  · intro hrows
    have hlen : ¬ (((find_expenses s c u st en (normFilterCat mc0)
        (normFilterCat sc0)).map (fun e => e.id)).length = 0) := by
      simp only [List.length_map, List.length_eq_zero]
      exact hrows
    constructor
    · rw [on_text_no_pending_plan s c u td ns raw _ hraw hpend, detour_scan_filter_val,
        if_neg hlen]
      simp [List.length_map]
    · exact set_state_expenses s c u _
  · intro ids raw2 plan2 hraw2
    refine ⟨?_, ?_, ?_⟩
    · intro hyes
      rw [on_text_pending _ c u td ns raw2 plan2 ids hraw2 (get_state_set_state s c u ids),
        handle_confirm_yes _ c u _ ids hyes]
    · intro hny hno
      refine ⟨?_, rfl, get_state_clear_state _ c u⟩
      rw [on_text_pending _ c u td ns raw2 plan2 ids hraw2 (get_state_set_state s c u ids),
        handle_confirm_no _ c u _ ids hny hno]
    · intro hny hnn
      rw [on_text_pending _ c u td ns raw2 plan2 ids hraw2 (get_state_set_state s c u ids),
        handle_confirm_other _ c u _ ids hny hnn]

/-- C3 witness: concrete runs — a zero-match filter delete replies "nothing
matched" with no pending state; a 2-row match only records the pending ids
and asks; then "Да" deletes both, "Нет" cancels untouched, anything else
re-prompts. -/
theorem C3_filter_delete_confirmation_witness :
    on_text twoRowSt 1 1 10 0 "удали" (.plan [.delete_expense (some "filter") .missing
        (.val 1) (.val 9) (some "транспорт") none]) = (twoRowSt, .nothingMatched) ∧
    on_text twoRowSt 1 1 10 0 "удали" (.plan [.delete_expense (some "filter") .missing
        (.val 1) (.val 9) (some "еда") none])
      = (set_state twoRowSt 1 1 [1, 0], .confirmFilter 2) ∧
    on_text (set_state twoRowSt 1 1 [1, 0]) 1 1 10 0 "Да" (.clarify "x")
      = (clear_state (delete_expenses_by_ids (set_state twoRowSt 1 1 [1, 0]) 1 1 [1, 0]).2
          1 1, .deletedCount 2) ∧
    on_text (set_state twoRowSt 1 1 [1, 0]) 1 1 10 0 "Нет" (.clarify "x")
      = (clear_state (set_state twoRowSt 1 1 [1, 0]) 1 1, .cancelled) ∧
    on_text (set_state twoRowSt 1 1 [1, 0]) 1 1 10 0 "возможно" (.clarify "x")
      = (set_state twoRowSt 1 1 [1, 0], .askYesNo) := by
  have hA := C3_filter_delete_confirmation twoRowSt 1 1 10 0 "удали" .missing 1 9
    (some "транспорт") none [] (by decide) (by decide)
  have hB := C3_filter_delete_confirmation twoRowSt 1 1 10 0 "удали" .missing 1 9
    (some "еда") none [] (by decide) (by decide)
  refine ⟨hA.1 (by decide), ?_, ?_, ?_, ?_⟩
  · rw [(hB.2.1 (by decide)).1]
    decide
  · rw [(hB.2.2 [1, 0] "Да" (.clarify "x") (by decide)).1 (by decide)]
    decide
  · exact ((hB.2.2 [1, 0] "Нет" (.clarify "x") (by decide)).2.1 (by decide) (by decide)).1
  · exact (hB.2.2 [1, 0] "возможно" (.clarify "x") (by decide)).2.2 (by decide) (by decide)

/-- C9 counterexample: a `last`-mode delete that unambiguously identifies
exactly one row (the ledger holds a single expense, id 0) still goes through
the confirmation detour — a PendingAction IS created and the row is NOT
removed, contradicting the claim that unambiguous `last` proceeds without
confirmation. -/
theorem C9_counterexample :
    on_text oneRowSt 1 1 10 0 "удали последнюю"
        (.plan [.delete_expense (some "last") .missing .missing .missing none none])
      = (set_state oneRowSt 1 1 [0], .confirmLast 0) ∧
    (set_state oneRowSt 1 1 [0]).expenses = oneRowSt.expenses ∧
    get_state (set_state oneRowSt 1 1 [0]) 1 1 = some [0] := by
  refine ⟨?_, rfl, by decide⟩
  decide

/-- C9 amended: a by_id delete executes directly — no PendingAction, no
yes/no turn, the row is removed in the same turn; but a `last`-mode delete
always records a PendingAction and asks for confirmation, even when it
identifies exactly one row. -/
theorem C9_amended_by_id_direct_last_confirms (s : St) (c u td ns : Int) (raw : String)
    (hraw : ¬ pyStrip raw = "") (hpend : get_state s c u = none) :
    (∀ rid sd ed mc0 sc0,
      on_text s c u td ns raw
          (.plan [.delete_expense (some "by_id") (.val rid) sd ed mc0 sc0])
        = ((delete_expenses_by_ids s c u [rid]).2,
           .finalReply [.delete_expense "by_id"
             (delete_expenses_by_ids s c u [rid]).1 [rid] none]) ∧
      get_state (delete_expenses_by_ids s c u [rid]).2 c u = none) ∧
    (∀ rid0 sd ed mc0 sc0 rest r rs,
      find_expenses s c u (td - 3650) td none none = r :: rs →
      on_text s c u td ns raw
          (.plan (.delete_expense (some "last") rid0 sd ed mc0 sc0 :: rest))
        = (set_state s c u [r.id], .confirmLast r.id) ∧
      (set_state s c u [r.id]).expenses = s.expenses) := by
  constructor
  · intro rid sd ed mc0 sc0
    constructor
    · rw [on_text_no_pending_plan s c u td ns raw _ hraw hpend, detour_scan_by_id]
      rw [execute_plan_singleton c u td ns s _ _ _ (exec_action_by_id c u td ns s rid sd ed mc0 sc0)]
      rfl
    · exact (get_state_congr (delete_states s c u [rid]) c u).trans hpend
  · intro rid0 sd ed mc0 sc0 rest r rs hfind
    constructor
    · rw [on_text_no_pending_plan s c u td ns raw _ hraw hpend, detour_scan_last_mode, hfind]
    · exact set_state_expenses s c u _

/-- C9 witness: concrete runs of both amended behaviours on a one-row ledger. -/
theorem C9_amended_witness :
    (on_text oneRowSt 1 1 10 0 "удали запись 0"
        (.plan [.delete_expense (some "by_id") (.val 0) .missing .missing none none])
      = ((delete_expenses_by_ids oneRowSt 1 1 [0]).2,
         .finalReply [.delete_expense "by_id"
           (delete_expenses_by_ids oneRowSt 1 1 [0]).1 [0] none]) ∧
      get_state (delete_expenses_by_ids oneRowSt 1 1 [0]).2 1 1 = none) ∧
    (on_text oneRowSt 1 1 10 0 "удали последнюю запись"
        (.plan [.delete_expense (some "last") .missing .missing .missing none none])
      = (set_state oneRowSt 1 1 [0], .confirmLast 0) ∧
      (set_state oneRowSt 1 1 [0]).expenses = oneRowSt.expenses) := by
  constructor
  · exact (C9_amended_by_id_direct_last_confirms oneRowSt 1 1 10 0 "удали запись 0"
      (by decide) (by decide)).1 0 .missing .missing none none
  · exact (C9_amended_by_id_direct_last_confirms oneRowSt 1 1 10 0 "удали последнюю запись"
      (by decide) (by decide)).2 .missing .missing .missing none none []
      ⟨0, 1, 1, 500, "UZS", "еда", "кофе", "", (9, 5), 9⟩ [] (by decide)

/-- C4 counterexample: a plan of [add_expense(malformed amount),
add_expense(12000, транспорт)] — executing it raises, records nothing, and
produces no result batch: the malformed action is NOT isolated as a single
errored entry and the well-formed action is NOT executed. -/
theorem C4_counterexample :
    execute_plan 1 1 10 0 St.empty
        [.add_expense .malformed none none none none .missing,
         .add_expense (.val 12000) none (some "транспорт") none none .missing]
      = ⟨St.empty, [], true⟩ := rfl

/-- C4 amended: only unknown action names are isolated as per-action error
entries with the rest of the batch still executed; a malformed or missing
required field (e.g. a non-numeric amount) raises an uncaught exception that
aborts the remainder of the plan — actions already executed keep their
committed writes, later actions never run, and no result batch is produced. -/
theorem C4_amended_error_isolation (c u td ns : Int) (s : St) (rest : List Action) :
    (∀ nm, execute_plan c u td ns s (.unknown nm :: rest)
        = (if (execute_plan c u td ns s rest).raised
           then ⟨(execute_plan c u td ns s rest).state, [], true⟩
           else ⟨(execute_plan c u td ns s rest).state,
                 .error_unknown nm :: (execute_plan c u td ns s rest).results, false⟩)) ∧
    (∀ cur0 mc0 sc0 note0 sd0,
      execute_plan c u td ns s (.add_expense .malformed cur0 mc0 sc0 note0 sd0 :: rest)
        = ⟨s, [], true⟩) ∧
    (∀ amt cur0 mc0 sc0 note0 d cur1 mc1 sc1 note1 sd1 rest2,
      ∃ s1 r, exec_action c u td ns s
          (.add_expense (.val amt) cur0 mc0 sc0 note0 (.val d)) = some (s1, r) ∧
        execute_plan c u td ns s
            (.add_expense (.val amt) cur0 mc0 sc0 note0 (.val d)
              :: .add_expense .malformed cur1 mc1 sc1 note1 sd1 :: rest2)
          = ⟨s1, [], true⟩) := by
  refine ⟨fun nm => rfl, fun cur0 mc0 sc0 note0 sd0 => rfl, ?_⟩
  intro amt cur0 mc0 sc0 note0 d cur1 mc1 sc1 note1 sd1 rest2
  exact ⟨_, _, rfl, rfl⟩

end BudgetTen
